import Mathlib

set_option maxRecDepth 16000

/-!
Verification of the storeroom node-IP conflict probe (`src/main/main.go`).

The Go program periodically computes the host's candidate node IPs (all local
interface addresses minus the ones bound to the `kube-ipvs0` dummy device,
filtered to non-loopback IPv4) and tests each against a configured CIDR,
logging the address list and a conflict notice.  Below, `net.IP` is embedded
as a list of byte values, k8s `sets.String` as a duplicate-free list of
strings in insertion order (one admissible map iteration order), and each
logging call as a constructor of `LogMsg`.
-/

/-- Go `net.IP`: a byte slice; `[]` plays the role of the nil IP. -/
abbrev GoIP := List Nat

/-- The 12-byte header of an IPv4-in-IPv6 (4-in-6) 16-byte address
(`v4InV6Prefix` in Go's net package: ten zero bytes then 0xff, 0xff). -/
def v4MappedHeader : List Nat := [0, 0, 0, 0, 0, 0, 0, 0, 0, 0, 255, 255]

/-- Go `net.IP.To4`: the 4-byte form of an IPv4 address, `none` otherwise. -/
def to4 (ip : GoIP) : Option (List Nat) :=
  if ip.length = 4 then some ip
  else if ip.length = 16 ∧ ip.take 12 = v4MappedHeader then some (ip.drop 12)
  else none

/-- `IsIPv6` from `src/main/main.go`: `netIP != nil && netIP.To4() == nil`. -/
def IsIPv6 (netIP : GoIP) : Bool :=
  !(netIP == []) && (to4 netIP).isNone

/-- Go `net.IPv6loopback` (`::1`). -/
def iPv6LoopbackBytes : GoIP := [0, 0, 0, 0, 0, 0, 0, 0, 0, 0, 0, 0, 0, 0, 0, 1]

/-- Go `net.IP.Equal`: bytewise equality, identifying a 4-byte IPv4 address
with its 16-byte 4-in-6 form. -/
def goEqual (ip x : GoIP) : Bool :=
  if ip.length = x.length then ip == x
  else if ip.length = 4 ∧ x.length = 16 then
    x.take 12 == v4MappedHeader && ip == x.drop 12
  else if ip.length = 16 ∧ x.length = 4 then
    ip.take 12 == v4MappedHeader && ip.drop 12 == x
  else false

/-- Go `net.IP.IsLoopback`: first byte 127 for IPv4, else equality with `::1`. -/
def IsLoopback (ip : GoIP) : Bool :=
  match to4 ip with
  | some p4 => p4.getD 0 0 == 127
  | none => goEqual ip iPv6LoopbackBytes

/-- `isValidForSet` from `src/main/main.go`: rejects IPv6 addresses and
loopback addresses (the IPv6 link-local branch is commented out in the
source, and the tracked family is fixed to IPv4). -/
def isValidForSet (ip : GoIP) : Bool :=
  if IsIPv6 ip then false
  else if IsLoopback ip then false
  else true

/-! String rendering: Go `net.IP.String`. -/

/-- Go net package `ubtoa`: decimal digits of a byte value (1 to 3 chars). -/
def ubtoa (v : Nat) : List Char :=
  if v < 10 then [Char.ofNat (48 + v)]
  else if v < 100 then [Char.ofNat (48 + v / 10), Char.ofNat (48 + v % 10)]
  else [Char.ofNat (48 + v / 100), Char.ofNat (48 + v / 10 % 10), Char.ofNat (48 + v % 10)]

/-- Dotted-decimal rendering of a 4-byte IPv4 address, as in `IP.String`. -/
def v4StringChars (p : List Nat) : List Char :=
  ubtoa (p.getD 0 0) ++ '.' :: ubtoa (p.getD 1 0) ++ '.' :: ubtoa (p.getD 2 0)
    ++ '.' :: ubtoa (p.getD 3 0)

/-- Go `hexDigits` lookup: lowercase hexadecimal digit for a nibble. -/
def hexDigitChar (n : Nat) : Char :=
  if n < 10 then Char.ofNat (48 + n) else Char.ofNat (87 + n)

/-- Go net package `appendHex`: hex digits of a group without leading zeros. -/
def appendHexChars (i : Nat) : List Char :=
  if i = 0 then ['0']
  else [7, 6, 5, 4, 3, 2, 1, 0].filterMap (fun j =>
    let v := i >>> (j * 4)
    if v > 0 then some (hexDigitChar (v % 16)) else none)

/-- Inner loop of the zero-run search in `IP.String`: extends `j` over
consecutive all-zero 16-bit groups. -/
def zeroRunEnd (p : List Nat) : Nat → Nat → Nat
  | j, 0 => j
  | j, fuel + 1 =>
    if j < 16 ∧ p.getD j 1 = 0 ∧ p.getD (j + 1) 1 = 0 then zeroRunEnd p (j + 2) fuel
    else j

/-- Outer loop of the zero-run search in `IP.String`: finds the longest run
of zero groups, as byte offsets `(e0, e1)` with `-1` meaning none. -/
def zeroRunScan (p : List Nat) : Nat → Int × Int → Nat → Int × Int
  | _, e, 0 => e
  | i, (e0, e1), fuel + 1 =>
    if i < 16 then
      let j := zeroRunEnd p i 8
      if i < j ∧ (j : Int) - (i : Int) > e1 - e0 then
        zeroRunScan p (j + 2) ((i : Int), (j : Int)) fuel
      else zeroRunScan p (i + 2) (e0, e1) fuel
    else (e0, e1)

/-- Zero-run selection in `IP.String`: runs of a single group are not
shortened with `::`. -/
def v6ZeroRun (p : List Nat) : Int × Int :=
  let e := zeroRunScan p 0 (-1, -1) 16
  if e.2 - e.1 ≤ 2 then (-1, -1) else e

/-- One 16-bit group of an IPv6 address, as in `IP.String`. -/
def hexGroup (p : List Nat) (i : Nat) : List Char :=
  appendHexChars (p.getD i 0 * 256 + p.getD (i + 1) 0)

/-- Main rendering loop of `IP.String` for 16-byte addresses: groups joined
by `:`, the selected zero run replaced by `::`. -/
def v6BuildChars (p : List Nat) (e0 e1 : Int) : Nat → Nat → List Char
  | 0, _ => []
  | fuel + 1, i =>
    if i ≥ 16 then []
    else if (i : Int) = e0 then
      if e1 ≥ 16 then [':', ':']
      else ':' :: ':' :: (hexGroup p e1.toNat ++ v6BuildChars p e0 e1 fuel (e1.toNat + 2))
    else
      (if i > 0 then [':'] else []) ++ hexGroup p i ++ v6BuildChars p e0 e1 fuel (i + 2)

/-- Go `net.IP.String` at the character-list level: `<nil>` for the nil IP,
dotted decimal for IPv4, `?`-prefixed raw hex for irregular lengths, and
RFC 5952 compressed hex for 16-byte IPv6 addresses. -/
def goIPStringChars (ip : GoIP) : List Char :=
  if ip.length = 0 then ['<', 'n', 'i', 'l', '>']
  else
    match to4 ip with
    | some p4 => v4StringChars p4
    | none =>
      if ip.length ≠ 16 then
        '?' :: (ip.map (fun b => [hexDigitChar (b / 16 % 16), hexDigitChar (b % 16)])).flatten
      else
        let e := v6ZeroRun ip
        v6BuildChars ip e.1 e.2 16 0

/-- Go `net.IP.String`. -/
def goIPString (ip : GoIP) : String := String.mk (goIPStringChars ip)

/-! Parsing: Go `net` decimal fields, IPv4 addresses, and CIDRs. -/

/-- Loop of Go net package `dtoi`, carrying the accumulator and index. -/
def dtoiAux : List Char → Nat → Nat → Nat × Nat × Bool
  | [], n, i => (n, i, true)
  | c :: rest, n, i =>
    if '0' ≤ c ∧ c ≤ '9' then
      let n' := n * 10 + (c.toNat - 48)
      if n' ≥ 0xFFFFFF then (0xFFFFFF, i, false)
      else dtoiAux rest n' (i + 1)
    else (n, i, true)

/-- Go net package `dtoi`: leading decimal number, characters consumed, and
success flag (false when no digits or the value reaches `big`). -/
def dtoi (s : List Char) : Nat × Nat × Bool :=
  let r := dtoiAux s 0 0
  if r.2.1 = 0 then (0, 0, false) else r

/-- One field of Go `parseIPv4`: a decimal value at most 255 (the sloppy,
pre-Go-1.17 variant, with no leading-zero rejection). -/
def parseV4Field (s : List Char) : Option (Nat × List Char) :=
  match dtoi s with
  | (n, i, ok) => if ok ∧ n ≤ 255 then some (n, s.drop i) else none

/-- Dot separator between IPv4 fields. -/
def expectDot : List Char → Option (List Char)
  | '.' :: rest => some rest
  | _ => none

/-- Go `parseIPv4`: four dot-separated byte fields consuming the whole
input, giving the 4 byte values. -/
def parseIPv4chars (s : List Char) : Option (List Nat) := do
  let (a, s) ← parseV4Field s
  let s ← expectDot s
  let (b, s) ← parseV4Field s
  let s ← expectDot s
  let (c, s) ← parseV4Field s
  let s ← expectDot s
  let (d, s) ← parseV4Field s
  if s = [] then some [a, b, c, d] else none

/-- Modelled from the spec: the address parse/normalize facility `ParseIP`
is called by `fetchNodeIPs` in `src/main/main.go` but defined nowhere under
`src/` (a commented import there points at the forked sloppy `net.ParseIP`).
The spec treats it as the platform facility that parses a candidate's
normalized string form back to binary form, so it is modelled as IPv4
dotted-decimal parsing to the 16-byte 4-in-6 binary form, returning the nil
IP on any other input; the collector only ever produces IPv4 candidate
strings, for which this agrees with Go's `net.ParseIP`. -/
def ParseIP (s : String) : GoIP :=
  match parseIPv4chars s.data with
  | some p4 => v4MappedHeader ++ p4
  | none => []

/-- Go `net.CIDRMask` restricted to 32 bits, as a list of 4 byte values. -/
def cidrMask4 (ones : Nat) : List Nat :=
  (List.range 4).map (fun i =>
    if (i + 1) * 8 ≤ ones then 255
    else if ones ≤ i * 8 then 0
    else 255 - (255 >>> (ones - i * 8)))

/-- Go `*net.IPNet` as produced by `net.ParseCIDR`: masked base address and
mask, both 4 bytes for the IPv4 CIDRs this program is configured with. -/
structure GoIPNet where
  ip : List Nat
  mask : List Nat
deriving DecidableEq

/-- Split at the first `/`, as Go `byteIndex(s, '/')` does in `ParseCIDR`. -/
def splitSlash : List Char → Option (List Char × List Char)
  | [] => none
  | '/' :: rest => some ([], rest)
  | c :: rest => (splitSlash rest).map (fun p => (c :: p.1, p.2))

/-- Go `net.ParseCIDR` on the IPv4 fragment this program exercises (the
spec treats CIDR parsing as an external collaborator; the configured service
ranges are IPv4): address part before `/`, whole-string decimal prefix
length at most 32, base address masked down. `none` on malformed input. -/
def goParseCIDR (s : String) : Option GoIPNet :=
  match splitSlash s.data with
  | none => none
  | some (addr, maskStr) =>
    match parseIPv4chars addr with
    | none => none
    | some p4 =>
      match dtoi maskStr with
      | (n, i, ok) =>
        if !ok ∨ i ≠ maskStr.length ∨ n > 32 then none
        else
          let m := cidrMask4 n
          some ⟨List.zipWith (fun a b => a &&& b) p4 m, m⟩

/-- Go `(*net.IPNet).Contains`: normalize the probed IP with `To4`, then
compare masked bytes against the (already masked) network number. -/
def ipnetContains (n : GoIPNet) (ip : GoIP) : Bool :=
  let ip' := match to4 ip with | some x => x | none => ip
  ip'.length == n.ip.length &&
    (List.range ip'.length).all (fun i =>
      (n.ip.getD i 0 &&& n.mask.getD i 0) == (ip'.getD i 0 &&& n.mask.getD i 0))

/-! The Address Set Collector: k8s `sets.String`, `AddressSet`, and the two
address sources of `fetchNodeIPs`. -/

/-- Go `net.Addr` as consumed by `AddressSet`: `*net.IPAddr`, `*net.IPNet`,
or any other address kind (skipped by the type switch). -/
inductive GoAddr where
  | ipAddr (ip : GoIP)
  | ipNet (ip : GoIP)
  | other
deriving DecidableEq

/-- The IP extracted by the type switch in `AddressSet`. -/
def addrIP : GoAddr → Option GoIP
  | .ipAddr ip => some ip
  | .ipNet ip => some ip
  | .other => none

/-- k8s `sets.String.Insert` on the list model: append when absent. -/
def insertStr (l : List String) (s : String) : List String :=
  if s ∈ l then l else l ++ [s]

/-- Body of the `AddressSet` loop from `src/main/main.go`: extract the IP
of an address, and insert its normalized string form when `isValid` accepts
it. -/
def addressStep (isValid : GoIP → Bool) (ips : List String) (a : GoAddr) : List String :=
  match addrIP a with
  | some ip => if isValid ip then insertStr ips (goIPString ip) else ips
  | none => ips

/-- `AddressSet` from `src/main/main.go`: fold `addressStep` over the
addresses, starting from the empty set. -/
def AddressSet (isValid : GoIP → Bool) (addrs : List GoAddr) : List String :=
  addrs.foldl (addressStep isValid) []

/-- k8s `sets.String.Difference`: the members of `s` not present in `s2`. -/
def SSetDifference (s s2 : List String) : List String :=
  s.filter (fun k => !s2.contains k)

/-! The Conflict Detector and Polling Driver: `fetchNodeIPs` and `main`. -/

/-- One logging call of `src/main/main.go`, in source order of appearance. -/
inductive LogMsg where
  | argsUsage
  | timeParseError
  | fetchFailed (e : String)
  | nodeIPs (ips : List GoIP)
  | cidrParseError
  | conflict (ip : GoIP)
  | context (nodeAddrs bindAddrs : List String) (ips : List GoIP)
deriving DecidableEq

/-- Result of the per-candidate loop inside `fetchNodeIPs`: accumulated
`ips`, the `invalidIP` flag, the emitted log, and (instrumentation) the
number of `net.ParseCIDR` calls performed. -/
structure LoopResult where
  ips : List GoIP
  flag : Bool
  log : List LogMsg
  calls : Nat
deriving DecidableEq

/-- The `for _, ipStr := range ipset.UnsortedList()` loop of `fetchNodeIPs`:
parse the candidate, append it unconditionally, parse the CIDR (once per
iteration, logging on failure), and on the first containment hit set
`invalidIP` and log the offending address. -/
def fetchLoop (cidr : String) : List String → Bool → LoopResult
  | [], inv => ⟨[], inv, [], 0⟩
  | ipStr :: rest, inv =>
    let a := ParseIP ipStr
    let pr := goParseCIDR cidr
    let perr : List LogMsg := match pr with | none => [.cidrParseError] | some _ => []
    let hit := match pr with
      | some ipnet => ipnetContains ipnet a
      | none => false
    let inv2 := if hit && !inv then true else inv
    let clog : List LogMsg := if hit && !inv then [.conflict a] else []
    let r := fetchLoop cidr rest inv2
    ⟨a :: r.ips, r.flag, perr ++ clog ++ r.log, r.calls + 1⟩

/-- Per-pass result observed from `fetchNodeIPs` after both address sources
succeeded: the returned `ips`, the `invalidIP` conflict flag, the log
(including the final context message when a conflict was seen), and the
`net.ParseCIDR` call count. -/
structure PassResult where
  ips : List GoIP
  conflictFlag : Bool
  log : List LogMsg
  cidrParseCalls : Nat

/-- The conflict-detection part of `fetchNodeIPs`, from the two computed
address sets onward: set difference, the per-candidate loop, and the
context log line emitted when `invalidIP` ended up true. -/
def fetchNodeIPsFrom (nodeAddress bindedAddress : List String) (cidr : String) : PassResult :=
  let ipset := SSetDifference nodeAddress bindedAddress
  let r := fetchLoop cidr ipset false
  { ips := r.ips
    conflictFlag := r.flag
    log := r.log ++ (if r.flag then [LogMsg.context nodeAddress bindedAddress r.ips] else [])
    cidrParseCalls := r.calls }

/-- `getAllLocalAddresses` from `src/main/main.go`, with the result of
`net.InterfaceAddrs` (an external source) passed in. -/
def getAllLocalAddresses (interfaceAddrs : Except String (List GoAddr)) :
    Except String (List String) :=
  match interfaceAddrs with
  | .error e => .error ("Could not get addresses: " ++ e)
  | .ok addr => .ok (AddressSet isValidForSet addr)

/-- `GetLocalAddresses` from `src/main/main.go`: the outer `Except` is the
`net.InterfaceByName` lookup, the inner one the `ifi.Addrs()` call. -/
def GetLocalAddresses (dev : String)
    (byName : Except String (Except String (List GoAddr))) :
    Except String (List String) :=
  match byName with
  | .error e => .error ("Could not get interface " ++ dev ++ ": " ++ e)
  | .ok (.error e) => .error ("Can't get addresses from " ++ dev ++ ": " ++ e)
  | .ok (.ok addr) => .ok (AddressSet isValidForSet addr)

/-- `bindedIPs` from `src/main/main.go`: the addresses bound to `kube-ipvs0`. -/
def bindedIPs (byName : Except String (Except String (List GoAddr))) :
    Except String (List String) :=
  GetLocalAddresses "kube-ipvs0" byName

/-- Observable outcome of one `fetchNodeIPs` call: the Go return value
`(ips, err)` as an `Except`, plus the conflict flag, log, and parse count. -/
structure FetchResult where
  res : Except String (List GoIP)
  conflictFlag : Bool
  log : List LogMsg
  cidrParseCalls : Nat

/-- `fetchNodeIPs` from `src/main/main.go`: wrap the all-local enumeration
error, propagate the `kube-ipvs0` lookup error as-is, and otherwise run the
detection loop on the set difference. -/
def fetchNodeIPs (interfaceAddrs : Except String (List GoAddr))
    (byName : Except String (Except String (List GoAddr))) (cidr : String) : FetchResult :=
  match getAllLocalAddresses interfaceAddrs with
  | .error e =>
    ⟨.error ("error listing LOCAL type addresses from host, error: " ++ e), false, [], 0⟩
  | .ok nodeAddress =>
    match bindedIPs byName with
    | .error e => ⟨.error e, false, [], 0⟩
    | .ok bindedAddress =>
      let r := fetchNodeIPsFrom nodeAddress bindedAddress cidr
      ⟨.ok r.ips, r.conflictFlag, r.log, r.cidrParseCalls⟩

/-- One pass's external inputs: what `net.InterfaceAddrs` and the
`kube-ipvs0` lookup return on that tick. -/
structure PassInput where
  interfaceAddrs : Except String (List GoAddr)
  byName : Except String (Except String (List GoAddr))

/-- One iteration of the `for` loop in `main`: call `fetchNodeIPs`, then log
either the fetch failure or the node-IP list. -/
def runPass (cidr : String) (inp : PassInput) : List LogMsg :=
  let r := fetchNodeIPs inp.interfaceAddrs inp.byName cidr
  match r.res with
  | .error e => r.log ++ [LogMsg.fetchFailed e]
  | .ok ips => r.log ++ [LogMsg.nodeIPs ips]

/-- The polling loop of `main`, truncated to the given list of per-pass
inputs: every pass runs unconditionally and the loop never exits. -/
def runPasses (cidr : String) : List PassInput → List LogMsg
  | [] => []
  | inp :: rest => runPass cidr inp ++ runPasses cidr rest

/-! Startup: Go `time.ParseDuration` and the argument checks of `main`. -/

/-- Largest int64 value, the overflow bound of Go durations. -/
def maxInt64 : Int := 9223372036854775807

/-- Decimal digit test used throughout Go's duration parser. -/
def isDigitChar (c : Char) : Bool := '0' ≤ c && c ≤ '9'

/-- Go time package `leadingInt`: consume leading digits into an int64,
failing on overflow (the two Go wraparound checks together fail exactly when
the true value exceeds `maxInt64`, which is how they are rendered here). -/
def leadingIntAux : List Char → Int → Option (Int × List Char)
  | [], x => some (x, [])
  | c :: rest, x =>
    if isDigitChar c then
      if x > maxInt64 / 10 then none
      else
        let y := x * 10 + (c.toNat - 48 : Nat)
        if y > maxInt64 then none
        else leadingIntAux rest y
    else some (x, c :: rest)

/-- Go time package `leadingFraction`: consume fractional digits, silently
stopping accumulation on overflow; `scale` (a float64 in Go, exact for every
power of ten reachable here) is kept as an integer. -/
def leadingFractionAux : List Char → Int → Int → Bool → Int × Int × List Char
  | [], x, scale, _ => (x, scale, [])
  | c :: rest, x, scale, ovf =>
    if isDigitChar c then
      if ovf then leadingFractionAux rest x scale ovf
      else if x > maxInt64 / 10 then leadingFractionAux rest x scale true
      else
        let y := x * 10 + (c.toNat - 48 : Nat)
        if y > maxInt64 then leadingFractionAux rest x scale true
        else leadingFractionAux rest y (scale * 10) false
    else (x, scale, c :: rest)

/-- Go time package `unitMap`, in nanoseconds. -/
def unitNanos : List Char → Option Int
  | ['n', 's'] => some 1
  | ['u', 's'] => some 1000
  | ['µ', 's'] => some 1000
  | ['μ', 's'] => some 1000
  | ['m', 's'] => some 1000000
  | ['s'] => some 1000000000
  | ['m'] => some 60000000000
  | ['h'] => some 3600000000000
  | _ => none

/-- Unit-name scan of `ParseDuration`: length of the prefix before the next
digit or dot. -/
def durUnitEnd (s : List Char) : Nat :=
  (s.takeWhile (fun c => !(c == '.' || isDigitChar c))).length

/-- Main loop of Go `time.ParseDuration`: one `[0-9]*(\.[0-9]*)?unit`
segment per iteration, accumulated into nanoseconds (the fractional
contribution, a float64 product in Go, is rendered as exact integer
arithmetic, which agrees on the exactly-representable values Go computes
for the millisecond intervals this program is given). -/
def parseDurationLoop : Nat → List Char → Int → Option Int
  | 0, _, _ => none
  | _ + 1, [], d => some d
  | fuel + 1, c :: cs, d =>
    let s := c :: cs
    if !(c == '.' || isDigitChar c) then none
    else
      match leadingIntAux s 0 with
      | none => none
      | some (v, s1) =>
        let pre := s1.length != s.length
        let fr :=
          match s1 with
          | '.' :: s1' =>
            let r := leadingFractionAux s1' 0 1 false
            (r.1, r.2.1, r.2.2, r.2.2.length != s1'.length)
          | _ => ((0 : Int), (1 : Int), s1, false)
        match fr with
        | (f, scale, s2, post) =>
          if !pre && !post then none
          else
            let i := durUnitEnd s2
            if i = 0 then none
            else
              match unitNanos (s2.take i) with
              | none => none
              | some unit =>
                if v > maxInt64 / unit then none
                else
                  let v1 := v * unit
                  let v2 := if f > 0 then v1 + f * unit / scale else v1
                  if v2 > maxInt64 then none
                  else
                    let d' := d + v2
                    if d' > maxInt64 then none
                    else parseDurationLoop fuel (s2.drop i) d'

/-- Go `time.ParseDuration`: optional sign, the special case `"0"`, then
the segment loop; the result is the duration in nanoseconds. -/
def parseDurationChars (s0 : List Char) : Option Int :=
  let sgn :=
    match s0 with
    | '-' :: rest => (true, rest)
    | '+' :: rest => (false, rest)
    | rest => (false, rest)
  match sgn with
  | (neg, s) =>
    if s = ['0'] then some 0
    else if s = [] then none
    else
      match parseDurationLoop (s.length + 1) s 0 with
      | none => none
      | some d => some (if neg then -d else d)

/-- Go `time.ParseDuration` on strings. -/
def parseDuration (s : String) : Option Int := parseDurationChars s.data

/-- The startup phase of `main`: require at least two positional arguments
(after the program name), append `"ms"` to the first and parse it as a
duration; the second is the CIDR string. `none` is the fatal-exit path. -/
def mainStartup (args : List String) : Option (Int × String) :=
  if args.length < 3 then none
  else
    match parseDuration (args.getD 1 "" ++ "ms") with
    | none => none
    | some d => some (d, args.getD 2 "")

/-- `main` from `src/main/main.go`, with the polling loop truncated to the
given pass inputs: missing arguments and an unparseable interval each log
one message and return before the loop. -/
def runMain (args : List String) (inputs : List PassInput) : List LogMsg :=
  if args.length < 3 then [LogMsg.argsUsage]
  else
    match parseDuration (args.getD 1 "" ++ "ms") with
    | none => [LogMsg.timeParseError]
    | some _ => runPasses (args.getD 2 "") inputs

/-- Go `time.Sleep`'s documented contract (an external platform facility):
a negative or zero duration returns immediately, so the time slept is the
duration clamped below at zero. -/
def goSleepNanos (d : Int) : Int := if d ≤ 0 then 0 else d

/-! Helper lemmas about the detection loop. -/

/-- The loop appends every candidate's parsed form, in order. -/
theorem fetchLoop_ips (cidr : String) (cands : List String) (inv : Bool) :
    (fetchLoop cidr cands inv).ips = cands.map ParseIP := by
  induction cands generalizing inv with
  | nil => rfl
  | cons c cs ih => simp [fetchLoop, ih]

/-- The loop parses the CIDR once per candidate. -/
theorem fetchLoop_calls (cidr : String) (cands : List String) (inv : Bool) :
    (fetchLoop cidr cands inv).calls = cands.length :=
  by
  induction cands generalizing inv with
  | nil => rfl
  | cons c cs ih => simp [fetchLoop, ih]

/-- With a well-formed CIDR, the final flag is the disjunction of the
incoming flag with per-candidate containment. -/
theorem fetchLoop_flag (cidr : String) (net : GoIPNet) (h : goParseCIDR cidr = some net)
    (cands : List String) (inv : Bool) :
    (fetchLoop cidr cands inv).flag =
      (inv || cands.any fun c => ipnetContains net (ParseIP c)) := by
  induction cands generalizing inv with
  | nil => simp [fetchLoop]
  | cons c cs ih =>
    simp only [fetchLoop, h, List.any_cons]
    rw [ih]
    cases inv <;> cases hc : ipnetContains net (ParseIP c) <;> simp

/-- With a well-formed CIDR, the loop logs exactly one conflict message, for
the first containment hit, and nothing else; with the flag already set it
logs nothing. -/
theorem fetchLoop_log (cidr : String) (net : GoIPNet) (h : goParseCIDR cidr = some net)
    (cands : List String) (inv : Bool) :
    (fetchLoop cidr cands inv).log =
      if inv then [] else
        match cands.find? (fun c => ipnetContains net (ParseIP c)) with
        | some c => [LogMsg.conflict (ParseIP c)]
        | none => [] := by
  induction cands generalizing inv with
  | nil => cases inv <;> simp [fetchLoop]
  | cons c cs ih =>
    simp only [fetchLoop, h]
    cases inv with
    | true => simpa using ih true
    | false =>
      cases hc : ipnetContains net (ParseIP c) with
      | true => simpa [List.find?_cons, hc] using ih true
      | false => simpa [List.find?_cons, hc] using ih false

/-- With a malformed CIDR, the loop still maps every candidate into the
output, leaves the flag unchanged, performs one (failing, logged) parse per
candidate, and never logs a conflict. -/
theorem fetchLoop_parse_fails (cidr : String) (h : goParseCIDR cidr = none)
    (cands : List String) (inv : Bool) :
    fetchLoop cidr cands inv =
      ⟨cands.map ParseIP, inv, List.replicate cands.length LogMsg.cidrParseError,
        cands.length⟩ := by
  induction cands generalizing inv with
  | nil => rfl
  | cons c cs ih => simp [fetchLoop, h, ih, List.replicate_succ]

/-! Helper lemmas about the string sets and the driver loop. -/

/-- Membership after one `addressStep`: either already present, or the
string of a valid IP extracted from the processed address. -/
theorem mem_addressStep (f : GoIP → Bool) (acc : List String) (a : GoAddr) (s : String)
    (h : s ∈ addressStep f acc a) :
    s ∈ acc ∨ ∃ ip, addrIP a = some ip ∧ f ip = true ∧ s = goIPString ip := by
  cases a with
  | ipAddr ip =>
    by_cases hv : f ip = true
    · simp only [addressStep, addrIP, hv, if_true, insertStr] at h
      split at h
      · exact Or.inl h
      · rcases List.mem_append.mp h with h' | h'
        · exact Or.inl h'
        · exact Or.inr ⟨ip, rfl, hv, by simpa using h'⟩
    · simp only [addressStep, addrIP, hv, if_false] at h
      exact Or.inl (by simpa [Bool.not_eq_true] using h)
  | ipNet ip =>
    by_cases hv : f ip = true
    · simp only [addressStep, addrIP, hv, if_true, insertStr] at h
      split at h
      · exact Or.inl h
      · rcases List.mem_append.mp h with h' | h'
        · exact Or.inl h'
        · exact Or.inr ⟨ip, rfl, hv, by simpa using h'⟩
    · simp only [addressStep, addrIP, hv, if_false] at h
      exact Or.inl (by simpa [Bool.not_eq_true] using h)
  | other => exact Or.inl h

/-- Membership in the `AddressSet` fold: any member either came from the
accumulator or is the string of a valid IP extracted from the input. -/
theorem mem_foldl_addressStep (f : GoIP → Bool) (addrs : List GoAddr) :
    ∀ (acc : List String) (s : String), s ∈ addrs.foldl (addressStep f) acc →
      s ∈ acc ∨ ∃ ip, (∃ a ∈ addrs, addrIP a = some ip) ∧ f ip = true ∧ s = goIPString ip := by
  induction addrs with
  | nil => intro acc s h; exact Or.inl h
  | cons a as ih =>
    intro acc s h
    rcases ih (addressStep f acc a) s h with h' | ⟨ip, ⟨a', ha', hip⟩, hf, hs⟩
    · rcases mem_addressStep f acc a s h' with h'' | ⟨ip, hip, hf, hs⟩
      · exact Or.inl h''
      · exact Or.inr ⟨ip, ⟨a, List.mem_cons_self a as, hip⟩, hf, hs⟩
    · exact Or.inr ⟨ip, ⟨a', List.mem_cons_of_mem a ha', hip⟩, hf, hs⟩

/-- Every member of an `AddressSet` is the string of a valid extracted IP. -/
theorem mem_AddressSet (f : GoIP → Bool) (addrs : List GoAddr) (s : String)
    (h : s ∈ AddressSet f addrs) :
    ∃ ip, (∃ a ∈ addrs, addrIP a = some ip) ∧ f ip = true ∧ s = goIPString ip := by
  rcases mem_foldl_addressStep f addrs [] s h with h' | h'
  · cases h'
  · exact h'

/-- The k8s set difference keeps exactly the members of the first set that
the second set does not contain. -/
theorem mem_SSetDifference (l1 l2 : List String) (s : String) :
    s ∈ SSetDifference l1 l2 ↔ s ∈ l1 ∧ s ∉ l2 := by
  simp [SSetDifference, List.mem_filter]

/-- Differencing with the empty set is the identity. -/
theorem SSetDifference_nil (l : List String) : SSetDifference l [] = l := by
  simp [SSetDifference]

/-- The truncated polling loop processes pass inputs segmentwise. -/
theorem runPasses_append (cidr : String) (l1 l2 : List PassInput) :
    runPasses cidr (l1 ++ l2) = runPasses cidr l1 ++ runPasses cidr l2 := by
  induction l1 with
  | nil => rfl
  | cons x xs ih => simp [runPasses, ih]

/-! Character-level facts about the string rendering, used to show that a
filtered-out address's string can never coincide with a kept address's
string. -/

/-- Decimal decode of a digit list, inverse to `ubtoa` on byte values. -/
def decChars (l : List Char) : Nat := l.foldl (fun n c => n * 10 + (c.toNat - 48)) 0

/-- Byte rendering produces only decimal digits. -/
theorem ubtoa_all_digits : ∀ v < 256, (ubtoa v).all isDigitChar = true := by decide

/-- Byte rendering round-trips through decimal decoding. -/
theorem ubtoa_decode : ∀ v < 256, decChars (ubtoa v) = v := by decide

/-- Byte rendering is never empty. -/
theorem ubtoa_ne_nil : ∀ v < 256, ubtoa v ≠ [] := by decide

/-- A default-0 list read of byte values stays below 256. -/
theorem getD_lt_256 : ∀ (p : List Nat), (∀ x ∈ p, x < 256) → ∀ i, p.getD i 0 < 256
  | [], _, i => by simp [List.getD]
  | x :: xs, h, 0 => by simpa using h x (by simp)
  | x :: xs, h, i + 1 => by
    simpa using getD_lt_256 xs (fun y hy => h y (by simp [hy])) i

/-- Splitting at a dot separator is unambiguous when the left parts are
digit-only. -/
theorem append_dot_inj : ∀ {xs xs' ys ys' : List Char},
    xs.all isDigitChar = true → xs'.all isDigitChar = true →
    xs ++ '.' :: ys = xs' ++ '.' :: ys' → xs = xs' ∧ ys = ys' := by
  intro xs
  induction xs with
  | nil =>
    intro xs' ys ys' _ hx' h
    cases xs' with
    | nil => simpa using h
    | cons b bs =>
      exfalso
      simp only [List.nil_append, List.cons_append, List.cons.injEq] at h
      have hb : isDigitChar b = true := (List.all_eq_true.mp hx') b (by simp)
      rw [← h.1] at hb
      exact absurd hb (by decide)
  | cons a as ih =>
    intro xs' ys ys' hx hx' h
    cases xs' with
    | nil =>
      exfalso
      simp only [List.nil_append, List.cons_append, List.cons.injEq] at h
      have ha : isDigitChar a = true := (List.all_eq_true.mp hx) a (by simp)
      rw [h.1] at ha
      exact absurd ha (by decide)
    | cons b bs =>
      simp only [List.cons_append, List.cons.injEq] at h
      have has : as.all isDigitChar = true := by
        have := List.all_eq_true.mp hx
        exact List.all_eq_true.mpr fun x hx => this x (by simp [hx])
      have hbs : bs.all isDigitChar = true := by
        have := List.all_eq_true.mp hx'
        exact List.all_eq_true.mpr fun x hx => this x (by simp [hx])
      obtain ⟨h1, h2⟩ := ih has hbs h.2
      exact ⟨by simp [h.1, h1], h2⟩

/-- The IPv4 rendering, reassociated into first field and remainder. -/
theorem v4StringChars_assoc (p : List Nat) :
    v4StringChars p = ubtoa (p.getD 0 0) ++ '.' :: (ubtoa (p.getD 1 0)
      ++ '.' :: (ubtoa (p.getD 2 0) ++ '.' :: ubtoa (p.getD 3 0))) := by
  simp [v4StringChars]

/-- Equal IPv4 renderings have equal first bytes. -/
theorem v4String_first_byte {p q : List Nat}
    (hp : ∀ x ∈ p, x < 256) (hq : ∀ x ∈ q, x < 256)
    (h : v4StringChars p = v4StringChars q) : p.getD 0 0 = q.getD 0 0 := by
  rw [v4StringChars_assoc p, v4StringChars_assoc q] at h
  have hsplit := append_dot_inj (ubtoa_all_digits _ (getD_lt_256 p hp 0))
    (ubtoa_all_digits _ (getD_lt_256 q hq 0)) h
  have hdec := congrArg decChars hsplit.1
  rwa [ubtoa_decode _ (getD_lt_256 p hp 0), ubtoa_decode _ (getD_lt_256 q hq 0)] at hdec

/-- Digit lists do not contain a colon. -/
theorem colon_not_mem_ubtoa (v : Nat) (hv : v < 256) : ':' ∉ ubtoa v := by
  intro hm
  have := (List.all_eq_true.mp (ubtoa_all_digits v hv)) ':' hm
  exact absurd this (by decide)

/-- Every character of an IPv4 rendering is a digit or a dot. -/
theorem mem_v4String_digit_or_dot (p : List Nat) (hp : ∀ x ∈ p, x < 256) :
    ∀ c ∈ v4StringChars p, isDigitChar c = true ∨ c = '.' := by
  intro c hc
  rw [v4StringChars_assoc p] at hc
  have digit : ∀ i, c ∈ ubtoa (p.getD i 0) → isDigitChar c = true := fun i h =>
    (List.all_eq_true.mp (ubtoa_all_digits _ (getD_lt_256 p hp i))) c h
  rcases List.mem_append.mp hc with h | h
  · exact Or.inl (digit 0 h)
  rcases List.mem_cons.mp h with h | h
  · exact Or.inr h
  rcases List.mem_append.mp h with h | h
  · exact Or.inl (digit 1 h)
  rcases List.mem_cons.mp h with h | h
  · exact Or.inr h
  rcases List.mem_append.mp h with h | h
  · exact Or.inl (digit 2 h)
  rcases List.mem_cons.mp h with h | h
  · exact Or.inr h
  exact Or.inl (digit 3 h)

/-- IPv4 renderings do not contain a colon. -/
theorem colon_not_mem_v4String (p : List Nat) (hp : ∀ x ∈ p, x < 256) :
    ':' ∉ v4StringChars p := by
  intro hmem
  rcases mem_v4String_digit_or_dot p hp ':' hmem with h | h
  · exact absurd h (by decide)
  · exact absurd h (by decide)

/-- An IPv4 rendering starts with a decimal digit. -/
theorem v4String_head (p : List Nat) (hp : ∀ x ∈ p, x < 256) :
    ∃ c t, v4StringChars p = c :: t ∧ isDigitChar c = true := by
  cases he : ubtoa (p.getD 0 0) with
  | nil => exact absurd he (ubtoa_ne_nil _ (getD_lt_256 p hp 0))
  | cons c t' =>
    refine ⟨c, t' ++ '.' :: ubtoa (p.getD 1 0) ++ '.' :: ubtoa (p.getD 2 0)
      ++ '.' :: ubtoa (p.getD 3 0), ?_, ?_⟩
    · unfold v4StringChars
      rw [he]
      rfl
    · exact (List.all_eq_true.mp (ubtoa_all_digits _ (getD_lt_256 p hp 0))) c (by rw [he]; simp)

/-- The IPv6 rendering loop always emits at least one colon. -/
theorem colon_mem_v6Build (p : List Nat) (e0 e1 : Int) (fuel : Nat) :
    ':' ∈ v6BuildChars p e0 e1 (fuel + 2) 0 := by
  by_cases h0 : (0 : Int) = e0
  · by_cases h16 : e1 ≥ 16 <;> simp [v6BuildChars, h0, h16]
  · by_cases h2 : (2 : Int) = e0
    · by_cases h16 : e1 ≥ 16 <;> simp [v6BuildChars, h0, h2, h16]
    · simp [v6BuildChars, h0, h2]

/-! Shape lemmas for the filter predicates. -/

/-- A successful `To4` comes from a 4-byte address or a 4-in-6 address. -/
theorem to4_shape (ip : GoIP) (p : List Nat) (h : to4 ip = some p) :
    (ip.length = 4 ∧ p = ip) ∨
      (ip.length = 16 ∧ ip.take 12 = v4MappedHeader ∧ p = ip.drop 12) := by
  unfold to4 at h
  split at h
  · exact Or.inl ⟨by assumption, (Option.some.injEq _ _ ▸ h).symm⟩
  · split at h
    · next h16 => exact Or.inr ⟨h16.1, h16.2, (Option.some.injEq _ _ ▸ h).symm⟩
    · cases h

/-- `To4` preserves byte bounds. -/
theorem to4_bytes (ip : GoIP) (p : List Nat) (h : to4 ip = some p)
    (hb : ∀ x ∈ ip, x < 256) : ∀ x ∈ p, x < 256 := by
  rcases to4_shape ip p h with ⟨_, rfl⟩ | ⟨_, _, rfl⟩
  · exact hb
  · exact fun x hx => hb x (List.mem_of_mem_drop hx)

/-- An address with a `To4` form is nonempty. -/
theorem to4_ne_nil (ip : GoIP) (p : List Nat) (h : to4 ip = some p) : ip ≠ [] := by
  intro hnil
  rw [hnil, show to4 [] = none from by decide] at h
  cases h

/-- The rendering of an address with a `To4` form is its dotted decimal. -/
theorem goIPStringChars_v4 (ip : GoIP) (p : List Nat) (h : to4 ip = some p) :
    goIPStringChars ip = v4StringChars p := by
  unfold goIPStringChars
  rw [h]
  rcases to4_shape ip p h with ⟨h4, _⟩ | ⟨h16, _, _⟩
  · simp [h4]
  · simp [h16]

/-- A valid address is accepted by neither rejection test. -/
theorem valid_shape (ip : GoIP) (h : isValidForSet ip = true) :
    IsIPv6 ip = false ∧ IsLoopback ip = false := by
  unfold isValidForSet at h
  split at h
  · cases h
  · split at h
    · cases h
    · exact ⟨by simp_all, by simp_all⟩

/-- An address classified IPv6 is nonempty and has no `To4` form. -/
theorem isIPv6_shape (ip : GoIP) (h : IsIPv6 ip = true) : ip ≠ [] ∧ to4 ip = none := by
  have h' := h
  unfold IsIPv6 at h'
  rw [Bool.and_eq_true] at h'
  refine ⟨?_, Option.isNone_iff_eq_none.mp h'.2⟩
  intro hnil
  rw [hnil] at h'
  exact absurd h'.1 (by decide)

/-- A loopback address without a `To4` form is exactly `::1`. -/
theorem loopback_no_to4 (ip : GoIP) (h : to4 ip = none) (hl : IsLoopback ip = true) :
    ip = iPv6LoopbackBytes := by
  have hl' : goEqual ip iPv6LoopbackBytes = true := by
    unfold IsLoopback at hl
    rwa [h] at hl
  unfold goEqual at hl'
  by_cases hlen : ip.length = iPv6LoopbackBytes.length
  · rw [if_pos hlen] at hl'
    exact eq_of_beq hl'
  · rw [if_neg hlen] at hl'
    by_cases h46 : ip.length = 4 ∧ iPv6LoopbackBytes.length = 16
    · rw [if_pos h46] at hl'
      rw [show (iPv6LoopbackBytes.take 12 == v4MappedHeader) = false from by decide,
        Bool.false_and] at hl'
      cases hl'
    · rw [if_neg h46] at hl'
      by_cases h64 : ip.length = 16 ∧ iPv6LoopbackBytes.length = 4
      · exact absurd h64.2 (by decide)
      · rw [if_neg h64] at hl'
        cases hl'

/-- The two rejection reasons classify an invalid address into a dotted
127-headed IPv4 rendering case and a no-`To4` case. -/
theorem invalid_classify (ip : GoIP)
    (h : IsLoopback ip = true ∨ IsIPv6 ip = true) :
    (∃ q, to4 ip = some q ∧ q.getD 0 0 = 127) ∨ (ip ≠ [] ∧ to4 ip = none) := by
  rcases h with hl | h6
  · cases hq : to4 ip with
    | some q =>
      left
      refine ⟨q, rfl, ?_⟩
      have hb : (q.getD 0 0 == 127) = true := by
        unfold IsLoopback at hl
        rwa [hq] at hl
      exact eq_of_beq hb
    | none =>
      right
      have heq := loopback_no_to4 ip hq hl
      exact ⟨by rw [heq]; decide, rfl⟩
  · exact Or.inr (isIPv6_shape ip h6)

/-- The rendering of a 16-byte address with no `To4` form goes through the
IPv6 loop. -/
theorem goIPStringChars_v6 (ip : GoIP) (hto : to4 ip = none) (hlen : ip.length = 16) :
    goIPStringChars ip = v6BuildChars ip (v6ZeroRun ip).1 (v6ZeroRun ip).2 16 0 := by
  unfold goIPStringChars
  rw [hto]
  simp [hlen]

/-- The rendering of an irregular-length address starts with a question
mark. -/
theorem goIPStringChars_irregular (ip : GoIP) (hto : to4 ip = none)
    (h0 : ip.length ≠ 0) (h16 : ip.length ≠ 16) :
    ∃ t, goIPStringChars ip = '?' :: t := by
  refine ⟨(ip.map (fun b => [hexDigitChar (b / 16 % 16), hexDigitChar (b % 16)])).flatten, ?_⟩
  unfold goIPStringChars
  rw [hto]
  simp [h0, h16]

/-- Central separation fact: the normalized string of an address kept by the
filter never coincides with the normalized string of an address the filter
rejects (all byte values being in range, as Go guarantees). -/
theorem valid_invalid_string_ne (ip1 ip2 : GoIP)
    (h1 : isValidForSet ip1 = true)
    (h2 : IsLoopback ip2 = true ∨ IsIPv6 ip2 = true)
    (b1 : ∀ x ∈ ip1, x < 256) (b2 : ∀ x ∈ ip2, x < 256) :
    goIPStringChars ip1 ≠ goIPStringChars ip2 := by
  obtain ⟨h6, hlb⟩ := valid_shape ip1 h1
  have hip1 : ip1 = [] ∨ ∃ p, to4 ip1 = some p ∧ p.getD 0 0 ≠ 127 := by
    by_cases hnil : ip1 = []
    · exact Or.inl hnil
    · right
      cases h4 : to4 ip1 with
      | none =>
        exfalso
        have : IsIPv6 ip1 = true := by
          unfold IsIPv6
          simp [hnil, h4]
        simp [this] at h6
      | some p =>
        refine ⟨p, rfl, ?_⟩
        unfold IsLoopback at hlb
        rw [h4] at hlb
        simpa using hlb
  rcases invalid_classify ip2 h2 with ⟨q, hq, hq127⟩ | ⟨hnil2, hto2⟩
  · -- ip2 renders as dotted decimal with first byte 127
    have hbq : ∀ x ∈ q, x < 256 := to4_bytes ip2 q hq b2
    rw [goIPStringChars_v4 ip2 q hq]
    rcases hip1 with rfl | ⟨p, hp, hp127⟩
    · -- nil renders as "<nil>", whose head is not a digit
      intro h
      obtain ⟨c, t, hct, hdig⟩ := v4String_head q hbq
      rw [hct] at h
      have : goIPStringChars [] = ['<', 'n', 'i', 'l', '>'] := by decide
      rw [this] at h
      have := List.head_eq_of_cons_eq h
      rw [← this] at hdig
      exact absurd hdig (by decide)
    · rw [goIPStringChars_v4 ip1 p hp]
      intro h
      have := v4String_first_byte (to4_bytes ip1 p hp b1) hbq h
      rw [hq127] at this
      exact hp127 this
  · -- ip2 renders as compressed IPv6 (containing ':') or '?'-prefixed hex
    have hlen2 : ip2.length ≠ 0 := by simpa using hnil2
    by_cases h162 : ip2.length = 16
    · -- contains a colon
      have hcolon : ':' ∈ goIPStringChars ip2 := by
        rw [goIPStringChars_v6 ip2 hto2 h162]
        exact colon_mem_v6Build ip2 (v6ZeroRun ip2).1 (v6ZeroRun ip2).2 14
      rcases hip1 with rfl | ⟨p, hp, _⟩
      · intro h
        rw [← h] at hcolon
        have : goIPStringChars [] = ['<', 'n', 'i', 'l', '>'] := by decide
        rw [this] at hcolon
        exact absurd hcolon (by decide)
      · rw [goIPStringChars_v4 ip1 p hp]
        intro h
        rw [← h] at hcolon
        exact colon_not_mem_v4String p (to4_bytes ip1 p hp b1) hcolon
    · -- starts with '?'
      obtain ⟨t, ht⟩ := goIPStringChars_irregular ip2 hto2 hlen2 h162
      rcases hip1 with rfl | ⟨p, hp, _⟩
      · intro h
        rw [ht] at h
        have : goIPStringChars [] = ['<', 'n', 'i', 'l', '>'] := by decide
        rw [this] at h
        have := List.head_eq_of_cons_eq h
        exact absurd this (by decide)
      · rw [goIPStringChars_v4 ip1 p hp]
        intro h
        rw [ht] at h
        obtain ⟨c, t', hct, hdig⟩ := v4String_head p (to4_bytes ip1 p hp b1)
        rw [hct] at h
        have := List.head_eq_of_cons_eq h
        rw [this] at hdig
        exact absurd hdig (by decide)

/-! Byte-range side conditions (Go stores IPs as byte slices, so every
entry is below 256). -/

/-- All entries of an IP are byte values. -/
def byteIP (ip : GoIP) : Bool := ip.all (fun x => decide (x < 256))

/-- All entries of an address's IP are byte values. -/
def byteAddr (a : GoAddr) : Bool :=
  match addrIP a with
  | some ip => byteIP ip
  | none => true

/-- Unpacking of the byte-range predicate. -/
theorem byteIP_spec (ip : GoIP) (h : byteIP ip = true) : ∀ x ∈ ip, x < 256 :=
  fun x hx => of_decide_eq_true (List.all_eq_true.mp h x hx)

/-! The claims. -/

/-- C1: for every pair of collected address sets and every well-formed CIDR,
the Detector's conflict flag is true iff at least one candidate address (the
set difference) falls inside the CIDR, and every candidate is collected into
the output list without short-circuiting; concretely, for allLocal =
{10.96.0.5, 127.0.0.1}, an empty virtual-interface set, and CIDR
10.96.0.0/12, the node-IP set is {10.96.0.5} and the conflict flag is
true. -/
theorem claim1_conflict_iff_and_scenarioB :
    (∀ (nodeA bindA : List String) (cidr : String) (net : GoIPNet),
      goParseCIDR cidr = some net →
        ((fetchNodeIPsFrom nodeA bindA cidr).conflictFlag = true ↔
          ∃ c ∈ SSetDifference nodeA bindA, ipnetContains net (ParseIP c) = true) ∧
        (fetchNodeIPsFrom nodeA bindA cidr).ips =
          (SSetDifference nodeA bindA).map ParseIP) ∧
    SSetDifference (AddressSet isValidForSet [.ipNet [10, 96, 0, 5], .ipNet [127, 0, 0, 1]])
        (AddressSet isValidForSet []) = ["10.96.0.5"] ∧
    (fetchNodeIPs (.ok [.ipNet [10, 96, 0, 5], .ipNet [127, 0, 0, 1]]) (.ok (.ok []))
        "10.96.0.0/12").res = .ok [ParseIP "10.96.0.5"] ∧
    (fetchNodeIPs (.ok [.ipNet [10, 96, 0, 5], .ipNet [127, 0, 0, 1]]) (.ok (.ok []))
        "10.96.0.0/12").conflictFlag = true := by
  refine ⟨?_, by decide, by rfl, by decide⟩
  intro nodeA bindA cidr net h
  constructor
  · have hb : (fetchNodeIPsFrom nodeA bindA cidr).conflictFlag =
        (fetchLoop cidr (SSetDifference nodeA bindA) false).flag := rfl
    rw [hb, fetchLoop_flag cidr net h _ false, Bool.false_or]
    exact List.any_eq_true
  · have hb : (fetchNodeIPsFrom nodeA bindA cidr).ips =
        (fetchLoop cidr (SSetDifference nodeA bindA) false).ips := rfl
    rw [hb, fetchLoop_ips]

/-- Witness for C1 at a concrete candidate set and CIDR. -/
theorem claim1_witness :
    ((fetchNodeIPsFrom ["10.96.0.5"] [] "10.96.0.0/12").conflictFlag = true ↔
      ∃ c ∈ SSetDifference ["10.96.0.5"] [],
        ipnetContains ⟨[10, 96, 0, 0], [255, 240, 0, 0]⟩ (ParseIP c) = true) ∧
    (fetchNodeIPsFrom ["10.96.0.5"] [] "10.96.0.0/12").ips =
      (SSetDifference ["10.96.0.5"] []).map ParseIP :=
  claim1_conflict_iff_and_scenarioB.1 ["10.96.0.5"] [] "10.96.0.0/12"
    ⟨[10, 96, 0, 0], [255, 240, 0, 0]⟩ (by decide)

/-- C2: the Collector's output set (difference of the all-local set and the
virtual-interface set) contains no member of the virtual-interface set and
only members of the all-local set. -/
theorem claim2_difference_disjoint_subset (a1 a2 : List GoAddr) (s : String)
    (h : s ∈ SSetDifference (AddressSet isValidForSet a1) (AddressSet isValidForSet a2)) :
    s ∈ AddressSet isValidForSet a1 ∧ s ∉ AddressSet isValidForSet a2 :=
  (mem_SSetDifference _ _ s).mp h

/-- Witness for C2 at a concrete address pair. -/
theorem claim2_witness :
    "10.0.0.5" ∈ AddressSet isValidForSet [.ipNet [10, 0, 0, 5], .ipNet [10, 96, 0, 10]] ∧
    "10.0.0.5" ∉ AddressSet isValidForSet [.ipNet [10, 96, 0, 10]] :=
  claim2_difference_disjoint_subset [.ipNet [10, 0, 0, 5], .ipNet [10, 96, 0, 10]]
    [.ipNet [10, 96, 0, 10]] "10.0.0.5" (by decide)

/-- C3: the filter excludes an address exactly when it is loopback or
belongs to the untracked family (this build tracks IPv4, so the untracked
family is IPv6 and the link-local clause for a tracked v6 family is
vacuous), and consequently no loopback address and no IPv6 address ever
appears, by its normalized string, in the Collector's output. -/
theorem claim3_filter_policy :
    (∀ ip : GoIP, isValidForSet ip = false ↔ (IsLoopback ip = true ∨ IsIPv6 ip = true)) ∧
    ∀ (addrs : List GoAddr) (ip : GoIP), addrs.all byteAddr = true → byteIP ip = true →
      (IsLoopback ip = true ∨ IsIPv6 ip = true) →
      goIPString ip ∉ AddressSet isValidForSet addrs := by
  constructor
  · intro ip
    unfold isValidForSet
    by_cases h6 : IsIPv6 ip = true <;> by_cases hl : IsLoopback ip = true <;>
      simp [h6, hl]
  · intro addrs ip hba hbi hinv hmem
    obtain ⟨ip1, ⟨a, ha, hip1⟩, hv, hs⟩ := mem_AddressSet _ _ _ hmem
    have hb1 : ∀ x ∈ ip1, x < 256 := by
      have hba' := List.all_eq_true.mp hba a ha
      unfold byteAddr at hba'
      rw [hip1] at hba'
      exact byteIP_spec ip1 hba'
    have hb2 : ∀ x ∈ ip, x < 256 := byteIP_spec ip hbi
    have hne := valid_invalid_string_ne ip1 ip hv hinv hb1 hb2
    exact hne (congrArg String.data hs.symm)

/-- Witness for C3 at a concrete loopback address. -/
theorem claim3_witness :
    goIPString [127, 0, 0, 1] ∉
      AddressSet isValidForSet [.ipNet [127, 0, 0, 1], .ipNet [10, 0, 0, 5]] :=
  claim3_filter_policy.2 [.ipNet [127, 0, 0, 1], .ipNet [10, 0, 0, 5]] [127, 0, 0, 1]
    (by decide) (by decide) (Or.inl (by decide))

/-- C4 counterexample: with the malformed CIDR string "banana" and an empty
candidate set, the pass emits no log message at all, so the claimed "the
parse failure is logged" fails (parsing is attempted only inside the
per-candidate loop). -/
theorem claim4_counterexample :
    goParseCIDR "banana" = none ∧
    (fetchNodeIPsFrom [] [] "banana").log = [] ∧
    (fetchNodeIPsFrom [] [] "banana").conflictFlag = false ∧
    (fetchNodeIPsFrom [] [] "banana").ips = [] := by decide

/-- C4 (amended): with a malformed CIDR the pass still populates and
returns the full candidate list, the conflict flag is false, no pass error
is reported, and the parse failure is logged once per candidate address —
hence not at all when the candidate set is empty. -/
theorem claim4_amended (nodeA bindA : List String) (cidr : String)
    (h : goParseCIDR cidr = none) :
    (fetchNodeIPsFrom nodeA bindA cidr).ips = (SSetDifference nodeA bindA).map ParseIP ∧
    (fetchNodeIPsFrom nodeA bindA cidr).conflictFlag = false ∧
    (fetchNodeIPsFrom nodeA bindA cidr).log =
      List.replicate (SSetDifference nodeA bindA).length LogMsg.cidrParseError ∧
    ∀ (a1 a2 : List GoAddr),
      (fetchNodeIPs (.ok a1) (.ok (.ok a2)) cidr).res =
        .ok ((SSetDifference (AddressSet isValidForSet a1)
          (AddressSet isValidForSet a2)).map ParseIP) := by
  have hloop := fetchLoop_parse_fails cidr h (SSetDifference nodeA bindA) false
  refine ⟨?_, ?_, ?_, ?_⟩
  · have hb : (fetchNodeIPsFrom nodeA bindA cidr).ips =
        (fetchLoop cidr (SSetDifference nodeA bindA) false).ips := rfl
    rw [hb, hloop]
  · have hb : (fetchNodeIPsFrom nodeA bindA cidr).conflictFlag =
        (fetchLoop cidr (SSetDifference nodeA bindA) false).flag := rfl
    rw [hb, hloop]
  · have hb : (fetchNodeIPsFrom nodeA bindA cidr).log =
        (fetchLoop cidr (SSetDifference nodeA bindA) false).log ++
          (if (fetchLoop cidr (SSetDifference nodeA bindA) false).flag then
            [LogMsg.context nodeA bindA (fetchLoop cidr (SSetDifference nodeA bindA) false).ips]
          else []) := rfl
    rw [hb, hloop]
    simp
  · intro a1 a2
    have hb : (fetchNodeIPs (.ok a1) (.ok (.ok a2)) cidr).res =
        .ok (fetchLoop cidr (SSetDifference (AddressSet isValidForSet a1)
          (AddressSet isValidForSet a2)) false).ips := rfl
    rw [hb, fetchLoop_parse_fails cidr h _ false]

/-- Witness for C4's amended statement at a concrete malformed CIDR. -/
theorem claim4_witness :
    (fetchNodeIPsFrom ["10.0.0.1"] [] "banana").ips =
      (SSetDifference ["10.0.0.1"] []).map ParseIP ∧
    (fetchNodeIPsFrom ["10.0.0.1"] [] "banana").conflictFlag = false ∧
    (fetchNodeIPsFrom ["10.0.0.1"] [] "banana").log =
      List.replicate (SSetDifference ["10.0.0.1"] []).length LogMsg.cidrParseError ∧
    ∀ (a1 a2 : List GoAddr),
      (fetchNodeIPs (.ok a1) (.ok (.ok a2)) "banana").res =
        .ok ((SSetDifference (AddressSet isValidForSet a1)
          (AddressSet isValidForSet a2)).map ParseIP) :=
  claim4_amended ["10.0.0.1"] [] "banana" (by decide)

/-- C5: whenever either address source fails, `fetchNodeIPs` returns an
error, conflict detection is never performed for that pass (flag false, no
detector log, no CIDR parse), and the driving loop logs the failure and
still executes every later pass. -/
theorem claim5_enumeration_error (cidr : String) (inp : PassInput)
    (h : (∃ e, inp.interfaceAddrs = .error e) ∨ (∃ e, inp.byName = .error e) ∨
      (∃ e, inp.byName = .ok (.error e))) :
    (∃ msg, (fetchNodeIPs inp.interfaceAddrs inp.byName cidr).res = .error msg ∧
      ∀ (pre post : List PassInput),
        runPasses cidr (pre ++ inp :: post) =
          runPasses cidr pre ++ [LogMsg.fetchFailed msg] ++ runPasses cidr post) ∧
    (fetchNodeIPs inp.interfaceAddrs inp.byName cidr).conflictFlag = false ∧
    (fetchNodeIPs inp.interfaceAddrs inp.byName cidr).log = [] ∧
    (fetchNodeIPs inp.interfaceAddrs inp.byName cidr).cidrParseCalls = 0 := by
  have hfail : ∃ msg, fetchNodeIPs inp.interfaceAddrs inp.byName cidr =
      ⟨.error msg, false, [], 0⟩ := by
    cases hia : inp.interfaceAddrs with
    | error e => exact ⟨_, rfl⟩
    | ok l =>
      cases hbn : inp.byName with
      | error e => exact ⟨_, rfl⟩
      | ok inner =>
        cases inner with
        | error e => exact ⟨_, rfl⟩
        | ok l2 =>
          exfalso
          rcases h with ⟨e, he⟩ | ⟨e, he⟩ | ⟨e, he⟩
          · rw [hia] at he
            cases he
          · rw [hbn] at he
            cases he
          · rw [hbn] at he
            simp at he
  obtain ⟨msg, hm⟩ := hfail
  refine ⟨⟨msg, by rw [hm], ?_⟩, by rw [hm], by rw [hm], by rw [hm]⟩
  intro pre post
  rw [runPasses_append]
  have hpass : runPasses cidr (inp :: post) = runPass cidr inp ++ runPasses cidr post := rfl
  rw [hpass]
  have hrp : runPass cidr inp = [LogMsg.fetchFailed msg] := by
    unfold runPass
    rw [hm]
    rfl
  rw [hrp]
  simp

/-- Witness for C5 at a concrete failing virtual-interface lookup. -/
theorem claim5_witness :
    (∃ msg, (fetchNodeIPs (PassInput.mk (.ok []) (.error "no such device")).interfaceAddrs
        (PassInput.mk (.ok []) (.error "no such device")).byName "10.96.0.0/12").res
          = .error msg ∧
      ∀ (pre post : List PassInput),
        runPasses "10.96.0.0/12" (pre ++ PassInput.mk (.ok []) (.error "no such device") :: post) =
          runPasses "10.96.0.0/12" pre ++ [LogMsg.fetchFailed msg] ++
            runPasses "10.96.0.0/12" post) ∧
    (fetchNodeIPs (PassInput.mk (.ok []) (.error "no such device")).interfaceAddrs
      (PassInput.mk (.ok []) (.error "no such device")).byName "10.96.0.0/12").conflictFlag
        = false ∧
    (fetchNodeIPs (PassInput.mk (.ok []) (.error "no such device")).interfaceAddrs
      (PassInput.mk (.ok []) (.error "no such device")).byName "10.96.0.0/12").log = [] ∧
    (fetchNodeIPs (PassInput.mk (.ok []) (.error "no such device")).interfaceAddrs
      (PassInput.mk (.ok []) (.error "no such device")).byName "10.96.0.0/12").cidrParseCalls
        = 0 :=
  claim5_enumeration_error "10.96.0.0/12" (PassInput.mk (.ok []) (.error "no such device"))
    (Or.inr (Or.inl ⟨"no such device", rfl⟩))

/-- C6 counterexample: with the well-formed CIDR 10.96.0.0/12 and two
candidate addresses, a single pass parses the CIDR twice — the parse sits
inside the per-address loop, not before it — refuting "parsed exactly once
per pass". -/
theorem claim6_counterexample :
    goParseCIDR "10.96.0.0/12" = some ⟨[10, 96, 0, 0], [255, 240, 0, 0]⟩ ∧
    (fetchNodeIPsFrom ["10.96.0.5", "10.0.0.1"] [] "10.96.0.0/12").cidrParseCalls = 2 := by
  decide

/-- C6 (amended): in every pass the configured CIDR string is parsed once
per candidate address, inside the per-address loop — `|candidates|` times
per pass, zero times when the candidate set is empty. -/
theorem claim6_amended (nodeA bindA : List String) (cidr : String) :
    (fetchNodeIPsFrom nodeA bindA cidr).cidrParseCalls =
      (SSetDifference nodeA bindA).length := by
  have hb : (fetchNodeIPsFrom nodeA bindA cidr).cidrParseCalls =
      (fetchLoop cidr (SSetDifference nodeA bindA) false).calls := rfl
  rw [hb, fetchLoop_calls]

/-- C7: for a fixed well-formed CIDR, inserting one more in-CIDR address
into the candidate set never turns the conflict flag from true to false —
the flag stays true, and indeed becomes true on any set after such an
insertion. -/
theorem claim7_monotonic (cidr : String) (net : GoIPNet)
    (h : goParseCIDR cidr = some net) (S1 S2 : List String) (a : String)
    (ha : ipnetContains net (ParseIP a) = true) :
    ((fetchNodeIPsFrom (S1 ++ S2) [] cidr).conflictFlag = true →
      (fetchNodeIPsFrom (S1 ++ a :: S2) [] cidr).conflictFlag = true) ∧
    (fetchNodeIPsFrom (S1 ++ a :: S2) [] cidr).conflictFlag = true := by
  have h1 : (fetchNodeIPsFrom (S1 ++ a :: S2) [] cidr).conflictFlag = true := by
    have hb : (fetchNodeIPsFrom (S1 ++ a :: S2) [] cidr).conflictFlag =
        (fetchLoop cidr (SSetDifference (S1 ++ a :: S2) []) false).flag := rfl
    rw [hb, SSetDifference_nil, fetchLoop_flag cidr net h]
    simp [ha]
  exact ⟨fun _ => h1, h1⟩

/-- Witness for C7 at a concrete CIDR and candidate insertion. -/
theorem claim7_witness :
    ((fetchNodeIPsFrom (["10.0.0.1"] ++ []) [] "10.96.0.0/12").conflictFlag = true →
      (fetchNodeIPsFrom (["10.0.0.1"] ++ "10.96.0.5" :: []) [] "10.96.0.0/12").conflictFlag
        = true) ∧
    (fetchNodeIPsFrom (["10.0.0.1"] ++ "10.96.0.5" :: []) [] "10.96.0.0/12").conflictFlag
      = true :=
  claim7_monotonic "10.96.0.0/12" ⟨[10, 96, 0, 0], [255, 240, 0, 0]⟩ (by decide)
    ["10.0.0.1"] [] "10.96.0.5" (by decide)

/-- C8: with a missing positional argument or an unparseable interval,
`main` logs the respective startup error and returns before the polling
loop — the run is independent of any pass inputs and no pass executes. -/
theorem claim8_startup_fatal (args : List String) (inputs : List PassInput)
    (h : args.length < 3 ∨ parseDuration (args.getD 1 "" ++ "ms") = none) :
    (runMain args inputs = [LogMsg.argsUsage] ∨
      runMain args inputs = [LogMsg.timeParseError]) ∧
    runMain args inputs = runMain args [] := by
  by_cases hlen : args.length < 3
  · exact ⟨Or.inl (by simp [runMain, hlen]), by simp [runMain, hlen]⟩
  · have hp : parseDuration (args.getD 1 "" ++ "ms") = none := by
      rcases h with h | h
      · exact absurd h hlen
      · exact h
    have key : ∀ ins : List PassInput, runMain args ins = [LogMsg.timeParseError] := by
      intro ins
      unfold runMain
      rw [if_neg hlen, hp]
    exact ⟨Or.inr (key inputs), by rw [key inputs, key []]⟩

/-- Witness for C8 with one missing argument and one unparseable interval. -/
theorem claim8_witness :
    ((runMain ["prog", "50"] [PassInput.mk (.ok []) (.ok (.ok []))] = [LogMsg.argsUsage] ∨
      runMain ["prog", "50"] [PassInput.mk (.ok []) (.ok (.ok []))] = [LogMsg.timeParseError]) ∧
      runMain ["prog", "50"] [PassInput.mk (.ok []) (.ok (.ok []))] = runMain ["prog", "50"] []) ∧
    ((runMain ["prog", "fast", "10.96.0.0/12"] [PassInput.mk (.ok []) (.ok (.ok []))] =
        [LogMsg.argsUsage] ∨
      runMain ["prog", "fast", "10.96.0.0/12"] [PassInput.mk (.ok []) (.ok (.ok []))] =
        [LogMsg.timeParseError]) ∧
      runMain ["prog", "fast", "10.96.0.0/12"] [PassInput.mk (.ok []) (.ok (.ok []))] =
        runMain ["prog", "fast", "10.96.0.0/12"] []) :=
  ⟨claim8_startup_fatal ["prog", "50"] [PassInput.mk (.ok []) (.ok (.ok []))]
      (Or.inl (by decide)),
    claim8_startup_fatal ["prog", "fast", "10.96.0.0/12"]
      [PassInput.mk (.ok []) (.ok (.ok []))] (Or.inr (by decide))⟩

/-- C9: with a well-formed CIDR, the pass log consists of exactly one
per-address conflict message — for the first in-CIDR candidate in iteration
order — followed by the single context message carrying the full address
list, or nothing when no candidate is in the CIDR; all candidates still
appear in the returned list. Concretely, with the two in-CIDR candidates
10.96.0.5 and 10.100.3.4, only the first is named in a conflict message. -/
theorem claim9_first_conflict_only (nodeA bindA : List String) (cidr : String)
    (net : GoIPNet) (h : goParseCIDR cidr = some net) :
    ((fetchNodeIPsFrom nodeA bindA cidr).log =
      (match (SSetDifference nodeA bindA).find? (fun c => ipnetContains net (ParseIP c)) with
       | some c => [LogMsg.conflict (ParseIP c),
           LogMsg.context nodeA bindA ((SSetDifference nodeA bindA).map ParseIP)]
       | none => []) ∧
    (fetchNodeIPsFrom nodeA bindA cidr).ips = (SSetDifference nodeA bindA).map ParseIP) ∧
    (∀ c ∈ ["10.96.0.5", "10.100.3.4"],
      ipnetContains ⟨[10, 96, 0, 0], [255, 240, 0, 0]⟩ (ParseIP c) = true) ∧
    (fetchNodeIPsFrom ["10.96.0.5", "10.100.3.4"] [] "10.96.0.0/12").log =
      [LogMsg.conflict (ParseIP "10.96.0.5"),
       LogMsg.context ["10.96.0.5", "10.100.3.4"] []
         [ParseIP "10.96.0.5", ParseIP "10.100.3.4"]] := by
  refine ⟨⟨?_, ?_⟩, by decide, by decide⟩
  · have hb : (fetchNodeIPsFrom nodeA bindA cidr).log =
        (fetchLoop cidr (SSetDifference nodeA bindA) false).log ++
          (if (fetchLoop cidr (SSetDifference nodeA bindA) false).flag then
            [LogMsg.context nodeA bindA
              (fetchLoop cidr (SSetDifference nodeA bindA) false).ips]
          else []) := rfl
    rw [hb, fetchLoop_log cidr net h _ false, fetchLoop_flag cidr net h _ false,
      fetchLoop_ips, Bool.false_or]
    cases hfind : (SSetDifference nodeA bindA).find?
        (fun c => ipnetContains net (ParseIP c)) with
    | some c =>
      have hmem := List.mem_of_find?_eq_some hfind
      have hpc := List.find?_some hfind
      have hany : (SSetDifference nodeA bindA).any
          (fun c => ipnetContains net (ParseIP c)) = true :=
        List.any_eq_true.mpr ⟨c, hmem, hpc⟩
      simp [hany]
    | none =>
      have hany : (SSetDifference nodeA bindA).any
          (fun c => ipnetContains net (ParseIP c)) = false := by
        rw [List.any_eq_false]
        intro x hx
        exact (List.find?_eq_none.mp hfind) x hx
      simp [hany]
  · have hb : (fetchNodeIPsFrom nodeA bindA cidr).ips =
        (fetchLoop cidr (SSetDifference nodeA bindA) false).ips := rfl
    rw [hb, fetchLoop_ips]

/-- Witness for C9 at a concrete candidate set. -/
theorem claim9_witness :
    ((fetchNodeIPsFrom ["10.0.0.1"] [] "10.96.0.0/12").log =
      (match (SSetDifference ["10.0.0.1"] []).find?
          (fun c => ipnetContains ⟨[10, 96, 0, 0], [255, 240, 0, 0]⟩ (ParseIP c)) with
       | some c => [LogMsg.conflict (ParseIP c),
           LogMsg.context ["10.0.0.1"] [] ((SSetDifference ["10.0.0.1"] []).map ParseIP)]
       | none => []) ∧
    (fetchNodeIPsFrom ["10.0.0.1"] [] "10.96.0.0/12").ips =
      (SSetDifference ["10.0.0.1"] []).map ParseIP) ∧
    (∀ c ∈ ["10.96.0.5", "10.100.3.4"],
      ipnetContains ⟨[10, 96, 0, 0], [255, 240, 0, 0]⟩ (ParseIP c) = true) ∧
    (fetchNodeIPsFrom ["10.96.0.5", "10.100.3.4"] [] "10.96.0.0/12").log =
      [LogMsg.conflict (ParseIP "10.96.0.5"),
       LogMsg.context ["10.96.0.5", "10.100.3.4"] []
         [ParseIP "10.96.0.5", ParseIP "10.100.3.4"]] :=
  claim9_first_conflict_only ["10.0.0.1"] [] "10.96.0.0/12"
    ⟨[10, 96, 0, 0], [255, 240, 0, 0]⟩ (by decide)

/-- C10: the startup check accepts exactly the argument strings that parse
as a duration once "ms" is appended; fractional ("2.5") and negative
("-100") intervals are accepted rather than fatal, and the negative
interval makes the end-of-pass sleep return immediately. -/
theorem claim10_interval_lenient :
    (∀ args : List String, ¬args.length < 3 →
      ((mainStartup args).isSome ↔ (parseDuration (args.getD 1 "" ++ "ms")).isSome)) ∧
    parseDuration ("2.5" ++ "ms") = some 2500000 ∧
    (mainStartup ["prog", "2.5", "10.96.0.0/12"]).isSome = true ∧
    parseDuration ("-100" ++ "ms") = some (-100000000) ∧
    mainStartup ["prog", "-100", "10.96.0.0/12"] = some (-100000000, "10.96.0.0/12") ∧
    (-100000000 : Int) < 0 ∧ goSleepNanos (-100000000) = 0 := by
  refine ⟨?_, by decide, by decide, by decide, by decide, by decide, by decide⟩
  intro args hlen
  unfold mainStartup
  rw [if_neg hlen]
  cases parseDuration (args.getD 1 "" ++ "ms") <;> simp

/-- Witness for C10's acceptance equivalence at a concrete argument list. -/
theorem claim10_witness :
    (mainStartup ["prog", "7", "10.96.0.0/12"]).isSome ↔
      (parseDuration (["prog", "7", "10.96.0.0/12"].getD 1 "" ++ "ms")).isSome :=
  claim10_interval_lenient.1 ["prog", "7", "10.96.0.0/12"] (by decide)
